import Mathlib

/-
Verification of the page-dewarp geometric-modeling and optimization pipeline.

The JavaScript sources are shallowly embedded: pure numeric code is modelled
over the exact rationals (idealizing IEEE doubles by exact field arithmetic),
and code that calls transcendental primitives (Math.sqrt, Math.atan2,
Math.cos, Math.sin) is modelled over the reals using Mathlib's exact
counterparts.  A JavaScript division that would produce a non-finite value
(division by zero in the perspective step or in a vector normalization) is
modelled by an Option result: `none` marks the spot where the JS program
produces NaN or Infinity.  External OpenCV calls (cv.Rodrigues,
cv.findHomography) are modelled at their interface: the rotation matrix or
homography they return is taken as an input of the embedded function, and
the only fact about them that a theorem uses is recorded at the use site
(Rodrigues maps the zero rotation vector to the identity matrix).
-/

namespace PageDewarp

/-- Configuration constants from src/config.js. -/
def Config.FOCAL_LENGTH : ℚ := 6/5

def Config.OPTIM_MAX_ITER : ℕ := 60

noncomputable def Config.EDGE_MAX_OVERLAP : ℝ := 1

noncomputable def Config.EDGE_MAX_LENGTH : ℝ := 100

noncomputable def Config.EDGE_ANGLE_COST : ℝ := 10

noncomputable def Config.EDGE_MAX_ANGLE : ℝ := 15/2

/-- JavaScript's Math.trunc (round toward zero), on exact rationals. -/
def jsTrunc (q : ℚ) : ℚ := if 0 ≤ q then (⌊q⌋ : ℚ) else (⌈q⌉ : ℚ)

/-- Embedding of pix2norm from src/utils.js: shape is (height, width); each
point (px, py) maps to ((px - w/2) * scl, (py - h/2) * scl) with
scl = 2 / max(height, width). -/
def pix2norm (height width : ℚ) (pts : List (ℚ × ℚ)) : List (ℚ × ℚ) :=
  let scl := 2 / max height width
  let offsetX := width * (1/2)
  let offsetY := height * (1/2)
  pts.map fun p => ((p.1 - offsetX) * scl, (p.2 - offsetY) * scl)

/-- Embedding of norm2pix from src/utils.js: the inverse scaling
scl = max(height, width) * 0.5 plus re-centering; when asInteger is true the
code rounds each coordinate with Math.trunc(x + 0.5). -/
def norm2pix (height width : ℚ) (pts : List (ℚ × ℚ)) (asInteger : Bool) :
    List (ℚ × ℚ) :=
  let scl := max height width * (1/2)
  let offsetX := width * (1/2)
  let offsetY := height * (1/2)
  pts.map fun p =>
    let x := p.1 * scl + offsetX
    let y := p.2 * scl + offsetY
    if asInteger then (jsTrunc (x + 1/2), jsTrunc (y + 1/2)) else (x, y)

/-- Embedding of the clamp applied to the cubic slopes in projectXY
(src/projection.js): Math.max(-0.5, Math.min(0.5, v)).  Polymorphic over the
ordered field so the same definition serves the exact-rational evaluation
and the real-analytic statements. -/
def clamp05 {K : Type} [LinearOrderedField K] (v : K) : K :=
  max (-(1/2)) (min (1/2) v)

/-- The cubic surface height z = p0*x^3 + p1*x^2 + p2*x of projectXY
(src/projection.js), with p0 = a + b, p1 = -2a - b, p2 = a built from the
(already clamped) slopes a and b. -/
def cubicZ {K : Type} [LinearOrderedField K] (a b x : K) : K :=
  (a + b) * x^3 + (-2*a - b) * x^2 + a * x

/-- A 3x3 rotation matrix as the nine entries the code reads out of the
cv.Rodrigues result (r00 .. r22 in src/projection.js). -/
structure Rot3 where
  r00 : ℚ
  r01 : ℚ
  r02 : ℚ
  r10 : ℚ
  r11 : ℚ
  r12 : ℚ
  r20 : ℚ
  r21 : ℚ
  r22 : ℚ

/-- The identity rotation matrix: cv.Rodrigues (external OpenCV) maps the
zero rotation vector to this matrix (Rodrigues formula at angle 0). -/
def identityRot : Rot3 := ⟨1, 0, 0, 0, 1, 0, 0, 0, 1⟩

/-- Embedding of projectXY from src/projection.js.  The rotation matrix R is
the cv.Rodrigues output for pvec[0..3] (an external OpenCV call, so it is
passed in); tvec is read from pvec[3..6] and the cubic slopes from
pvec[6..8] with clamping.  The perspective division by Pcz is fallible: the
JS code divides by Pcz and produces non-finite coordinates when Pcz = 0,
which the embedding marks with none. -/
def projectXY (R : Rot3) (xyCoords : List (ℚ × ℚ)) (pvec : List ℚ) :
    List (Option (ℚ × ℚ)) :=
  let a := clamp05 (pvec.getD 6 0)
  let b := clamp05 (pvec.getD 7 0)
  let tx := pvec.getD 3 0
  let ty := pvec.getD 4 0
  let tz := pvec.getD 5 0
  let K_f := Config.FOCAL_LENGTH
  xyCoords.map fun pt =>
    let x := pt.1
    let y := pt.2
    let z := cubicZ a b x
    let Pcx := R.r00 * x + R.r01 * y + R.r02 * z + tx
    let Pcy := R.r10 * x + R.r11 * y + R.r12 * z + ty
    let Pcz := R.r20 * x + R.r21 * y + R.r22 * z + tz
    if Pcz = 0 then none else some (K_f * (Pcx / Pcz), K_f * (Pcy / Pcz))

/-- Index of the span containing flattened point j, mirroring the span-range
fill loop of makeKeypointIndex (src/keypoints.js). -/
def spanOfPoint : List ℕ → ℕ → ℕ
  | [], _ => 0
  | c :: rest, j => if j < c then 0 else spanOfPoint rest (j - c) + 1

/-- Embedding of makeKeypointIndex from src/keypoints.js: an array of
nPts + 1 pairs; entry 0 is the dummy (0, 0); entry j + 1 holds
(j + 8 + nSpans, 8 + span index of point j), exactly the values the two
fill loops write. -/
def makeKeypointIndex (spanCounts : List ℕ) : List (ℕ × ℕ) :=
  let nSpans := spanCounts.length
  let nPts := spanCounts.sum
  (0, 0) :: (List.range nPts).map fun j =>
    (j + 8 + nSpans, 8 + spanOfPoint spanCounts j)

/-- Embedding of projectKeypoints from src/keypoints.js: a dummy (0,0) head
followed by (pvec[idxX], pvec[idxY]) per index entry, all fed to projectXY. -/
def projectKeypoints (R : Rot3) (pvec : List ℚ) (keypointIndex : List (ℕ × ℕ)) :
    List (Option (ℚ × ℚ)) :=
  let xyCoords :=
    ((0 : ℚ), (0 : ℚ)) ::
      (keypointIndex.drop 1).map fun e => (pvec.getD e.1 0, pvec.getD e.2 0)
  projectXY R xyCoords pvec

/-- Embedding of the objective closed over by optimiseParams
(src/unnamed/part_000): the sum of squared differences between dstpoints and
the projected keypoints.  The result is none when any projected point is
non-finite, since in JS the NaN/Infinity would propagate through the sum. -/
def optimiseObjective (R : Rot3) (dstpoints : List (ℚ × ℚ))
    (keypointIndex : List (ℕ × ℕ)) (pvec : List ℚ) : Option ℚ :=
  let ppts := projectKeypoints R pvec keypointIndex
  (dstpoints.zip ppts).foldl
    (fun acc dp =>
      match acc, dp.2 with
      | some s, some p =>
          some (s + (dp.1.1 - p.1) * (dp.1.1 - p.1) + (dp.1.2 - p.2) * (dp.1.2 - p.2))
      | _, _ => none)
    (some 0)

/-- Embedding of the parameter-vector assembly at the end of getDefaultParams
(src/unnamed/part_002): rvec (3 entries), tvec (3 entries), the two zero
cubic slopes, one y per span, then every x of every span.  The pose values
come from solvePnP and are opaque for the layout property. -/
def defaultParamsVec (rvec tvec : ℚ × ℚ × ℚ) (ycoords : List ℚ)
    (xcoords : List (List ℚ)) : List ℚ :=
  [rvec.1, rvec.2.1, rvec.2.2, tvec.1, tvec.2.1, tvec.2.2, 0, 0] ++
    ycoords ++ xcoords.flatten

/-- The per-coordinate clamp of buildRemapMaps (src/dewarp.js): coordinates
above 100000 or below -100000 are pulled back to the bound. -/
def clampRemapCoord (x : ℚ) : ℚ :=
  if x > 100000 then 100000 else if x < -100000 then -100000 else x

/-- The sanitization step of buildRemapMaps (src/dewarp.js) on one projected
point: a non-finite point (modelled as none) is replaced by the sentinel
(0, 0) and flagged for the invalid-point counter; every coordinate is then
clamped to the bound of 100000. -/
def sanitizeRemapPoint (p : Option (ℚ × ℚ)) : (ℚ × ℚ) × Bool :=
  match p with
  | none => ((clampRemapCoord 0, clampRemapCoord 0), true)
  | some q => ((clampRemapCoord q.1, clampRemapCoord q.2), false)

/-- The coordinate-writing loop of buildRemapMaps (src/dewarp.js): the list
of sanitized map entries, and the invalidPointCount of replaced points. -/
def buildRemapCoords (imagePoints : List (Option (ℚ × ℚ))) :
    List (ℚ × ℚ) × ℕ :=
  (imagePoints.map fun p => (sanitizeRemapPoint p).1,
   (imagePoints.map fun p => (sanitizeRemapPoint p).2).count true)

/-
Embedding of the span-assembly pipeline of src/spans.js together with the
ContourInfo record constructor of src/unnamed/part_000.  These functions call
Math.atan2 and Math.sqrt, so they are modelled over the reals.
-/

/-- JavaScript's Math.atan2, written with Real.arctan in the standard
piecewise form; Math.atan2(0, 0) is 0. -/
noncomputable def jsAtan2 (y x : ℝ) : ℝ :=
  if 0 < x then Real.arctan (y / x)
  else if x < 0 then
    (if 0 ≤ y then Real.arctan (y / x) + Real.pi else Real.arctan (y / x) - Real.pi)
  else if 0 < y then Real.pi / 2 else if y < 0 then -(Real.pi / 2) else 0

/-- Embedding of angleDist (src/spans.js): wrap the difference of two angles
into [-pi, pi] and take the absolute value.  Both inputs come from
Math.atan2, so the difference lies in (-2pi, 2pi) and each JS while loop
executes at most once; the loops are therefore one conditional step each. -/
noncomputable def angleDist (angleB angleA : ℝ) : ℝ :=
  let diff := angleB - angleA
  let d1 := if diff > Real.pi then diff - 2 * Real.pi else diff
  let d2 := if d1 < -Real.pi then d1 + 2 * Real.pi else d1
  |d2|

/-- Embedding of intervalMeasureOverlap (src/unnamed/part_000):
min(a_end, b_end) - max(a_start, b_start). -/
noncomputable def intervalMeasureOverlap (a0 a1 b0 b1 : ℝ) : ℝ :=
  min a1 b1 - max a0 b0

/-- A ContourInfo record (src/unnamed/part_000) after construction: the
moment center and tangent, the tangent angle, the local projection range,
the two extremal points, and the bounding rect used for deterministic
sorting.  The pred/succ link fields live in the linking state instead. -/
structure CInfo where
  center : ℝ × ℝ
  tangent : ℝ × ℝ
  angle : ℝ
  lx0 : ℝ
  lx1 : ℝ
  point0 : ℝ × ℝ
  point1 : ℝ × ℝ
  rectX : ℚ
  rectY : ℚ
  rectW : ℚ
  rectH : ℚ

instance : Inhabited CInfo :=
  ⟨⟨(0, 0), (0, 0), 0, 0, 0, (0, 0), (0, 0), 0, 0, 0, 0⟩⟩

/-- The projX method of ContourInfo: dot(tangent, point - center). -/
noncomputable def projX (c : CInfo) (p : ℝ × ℝ) : ℝ :=
  c.tangent.1 * (p.1 - c.center.1) + c.tangent.2 * (p.2 - c.center.2)

/-- The ContourInfo constructor (src/unnamed/part_000): derives the angle
from the tangent via Math.atan2, the local range as min/max of the contour
points' tangent projections, and the extremal points center + tangent * lx.
The contour point list is nonempty in every use (an empty one would make
JS Math.min return Infinity). -/
noncomputable def mkCInfo (contourPts : List (ℝ × ℝ)) (center tangent : ℝ × ℝ)
    (rectX rectY rectW rectH : ℚ) : CInfo :=
  let angle := jsAtan2 tangent.2 tangent.1
  let clx := contourPts.map fun p =>
    tangent.1 * (p.1 - center.1) + tangent.2 * (p.2 - center.2)
  let lxmin := match clx with | [] => 0 | h :: t => t.foldl min h
  let lxmax := match clx with | [] => 0 | h :: t => t.foldl max h
  { center := center, tangent := tangent, angle := angle,
    lx0 := lxmin, lx1 := lxmax,
    point0 := (center.1 + tangent.1 * lxmin, center.2 + tangent.2 * lxmin),
    point1 := (center.1 + tangent.1 * lxmax, center.2 + tangent.2 * lxmax),
    rectX := rectX, rectY := rectY, rectW := rectW, rectH := rectH }

/-- The localOverlap method of ContourInfo: overlap measure of the own local
range with the projections of the other record's extremal points. -/
noncomputable def localOverlap (c other : CInfo) : ℝ :=
  intervalMeasureOverlap c.lx0 c.lx1 (projX c other.point0) (projX c other.point1)

/-- Embedding of generateCandidateEdge (src/spans.js) at positions (i, j) of
the sorted record list: first swap so the record whose point0.x does not
exceed the other's point1.x becomes the source (lines 14-17), then compute
overlap, center-line angle deviation in degrees, and endpoint distance, and
reject when any threshold is exceeded; an accepted pair yields the directed
edge (source index, target index, score). -/
noncomputable def generateCandidateEdge (l : List CInfo) (i j : ℕ) :
    Option (ℕ × ℕ × ℝ) :=
  let A := l.getD i default
  let B := l.getD j default
  let s := if A.point0.1 > B.point1.1 then ((j, i), (B, A)) else ((i, j), (A, B))
  let ai := s.1.1
  let bi := s.1.2
  let a := s.2.1
  let b := s.2.2
  let xOverlapA := localOverlap a b
  let xOverlapB := localOverlap b a
  let overallAngle := jsAtan2 (b.center.2 - a.center.2) (b.center.1 - a.center.1)
  let deltaAngle :=
    max (angleDist a.angle overallAngle) (angleDist b.angle overallAngle) * 180 / Real.pi
  let xOverlap := max xOverlapA xOverlapB
  let dist := Real.sqrt ((b.point0.1 - a.point1.1)^2 + (b.point0.2 - a.point1.2)^2)
  if dist > Config.EDGE_MAX_LENGTH ∨ xOverlap > Config.EDGE_MAX_OVERLAP ∨
      deltaAngle > Config.EDGE_MAX_ANGLE then none
  else some (ai, bi, dist + deltaAngle * Config.EDGE_ANGLE_COST)

/-- Embedding of generateAllCandidateEdges (src/spans.js): all pairs (i, j)
with j < i in list order, keeping the accepted edges in discovery order. -/
noncomputable def generateAllCandidateEdges (l : List CInfo) : List (ℕ × ℕ × ℝ) :=
  (List.range l.length).flatMap fun i =>
    (List.range i).filterMap fun j => generateCandidateEdge l i j

/-- The comparator of sortContoursForAssembly (src/spans.js):
lexicographic on (rect.y, rect.x, rect.width, rect.height). -/
def rectKeyLe (a b : CInfo) : Prop :=
  a.rectY < b.rectY ∨ (a.rectY = b.rectY ∧
    (a.rectX < b.rectX ∨ (a.rectX = b.rectX ∧
      (a.rectW < b.rectW ∨ (a.rectW = b.rectW ∧ a.rectH ≤ b.rectH)))))

instance : DecidableRel rectKeyLe := fun a b => by
  unfold rectKeyLe; infer_instance

/-- Embedding of sortContoursForAssembly (src/spans.js): stable sort by the
bounding-rect key (JS Array.prototype.sort is stable). -/
def sortContoursForAssembly (l : List CInfo) : List CInfo :=
  List.insertionSort rectKeyLe l

/-- The greedy commit of one candidate edge inside linkContours
(src/spans.js): commit (a, b) exactly when a currently has no successor and
b currently has no predecessor; the succ and pred object fields become two
maps keyed by record position. -/
def linkStep (sp : (ℕ → Option ℕ) × (ℕ → Option ℕ)) (e : ℕ × ℕ × ℝ) :
    (ℕ → Option ℕ) × (ℕ → Option ℕ) :=
  if sp.1 e.1 = none ∧ sp.2 e.2.1 = none then
    (Function.update sp.1 e.1 (some e.2.1), Function.update sp.2 e.2.1 (some e.1))
  else sp

/-- Embedding of linkContours (src/spans.js): sort the candidate edges
ascending by score (stable), then greedily commit each edge in order. -/
noncomputable def linkContours (candidateEdges : List (ℕ × ℕ × ℝ)) :
    (ℕ → Option ℕ) × (ℕ → Option ℕ) :=
  let sorted := @List.insertionSort _ (fun e1 e2 => e1.2.2 ≤ e2.2.2)
    (Classical.decRel _) candidateEdges
  sorted.foldl linkStep (fun _ => none, fun _ => none)

/-- The edge-linking stage of assembleSpans (src/spans.js): sort the
records, generate candidate edges, link.  Returns (succ, pred). -/
noncomputable def assembleLinks (cinfoList : List CInfo) :
    (ℕ → Option ℕ) × (ℕ → Option ℕ) :=
  linkContours (generateAllCandidateEdges (sortContoursForAssembly cinfoList))

/-- A concrete contour record with center (0,0), tangent (1,0) and local
range [-2, 0]; the consistency lemma below shows it is exactly the
ContourInfo the constructor builds from contour points (-2,0), (0,0). -/
noncomputable def exRec0 : CInfo :=
  ⟨(0, 0), (1, 0), 0, -2, 0, (-2, 0), (0, 0), 0, 0, 1, 1⟩

/-- A concrete contour record with center (0,0), tangent (1,0) and local
range [-1, 3], built by the constructor from contour points (-1,0), (3,0). -/
noncomputable def exRec1 : CInfo :=
  ⟨(0, 0), (1, 0), 0, -1, 3, (-1, 0), (3, 0), 0, 1, 1, 1⟩

/-- A concrete contour record with center (0,0), tangent (1,0) and local
range [1, 2], built by the constructor from contour points (1,0), (2,0). -/
noncomputable def exRec2 : CInfo :=
  ⟨(0, 0), (1, 0), 0, 1, 2, (1, 0), (2, 0), 0, 2, 1, 1⟩

/-- Following a succ map k steps from a record position (the walk of
extractSpans in src/spans.js). -/
def succIter (succ : ℕ → Option ℕ) : ℕ → ℕ → Option ℕ
  | 0, i => some i
  | k + 1, i =>
    match succ i with
    | none => none
    | some j => succIter succ k j

/-- Embedding of getPrincipalAxis (src/spans.js): dominant eigenvector of
the 2x2 sample covariance via the closed-form eigenvalue, with the
axis-aligned fallback when the off-diagonal term is near zero, canonicalized
to a non-negative x component. -/
noncomputable def getPrincipalAxis (points : List (ℝ × ℝ)) : ℝ × ℝ :=
  if points.length < 2 then (1, 0)
  else
    let sumX := points.foldl (fun s p => s + p.1) 0
    let sumY := points.foldl (fun s p => s + p.2) 0
    let meanX := sumX / (points.length : ℝ)
    let meanY := sumY / (points.length : ℝ)
    let cXX := points.foldl (fun s p => s + (p.1 - meanX) * (p.1 - meanX)) 0
    let cXY := points.foldl (fun s p => s + (p.1 - meanX) * (p.2 - meanY)) 0
    let cYY := points.foldl (fun s p => s + (p.2 - meanY) * (p.2 - meanY)) 0
    let T := cXX + cYY
    let D := cXX * cYY - cXY * cXY
    let L1 := T / 2 + Real.sqrt (max 0 (T * T / 4 - D))
    let vv : ℝ × ℝ :=
      if |cXY| > 1/1000000000 then
        let theta := jsAtan2 (-(cXX - L1)) cXY
        (Real.cos theta, Real.sin theta)
      else if cXX ≥ cYY then (1, 0) else (0, 1)
    if vv.1 < 0 then (-vv.1, -vv.2) else vv

/-- The page-axis pair and the raw weighted sums computed by
computeGlobalPageAxes (src/spans.js). -/
structure PageAxes where
  x_dir : ℝ × ℝ
  y_dir : ℝ × ℝ
  allEvecX : ℝ
  allEvecY : ℝ
  allWeights : ℝ

/-- Embedding of computeGlobalPageAxes (src/spans.js lines 355-395): weight
each span's principal axis by its first-to-last chord length, average the
weighted sum by the total weight (defaulting to (1, 0) with weight 1 when
the total weight is zero), flip to a non-negative x component, and rotate by
90 degrees for y_dir.  Note: this code divides by the total weight but never
rescales the averaged vector to unit length. -/
noncomputable def computeGlobalPageAxes (spanPoints : List (List (ℝ × ℝ))) :
    PageAxes :=
  let acc := spanPoints.foldl
    (fun (acc : ℝ × ℝ × ℝ) points =>
      if points.length < 2 then acc
      else
        let v := getPrincipalAxis points
        let pFirst := points.getD 0 (0, 0)
        let pLast := points.getD (points.length - 1) (0, 0)
        let weight := Real.sqrt ((pLast.1 - pFirst.1)^2 + (pLast.2 - pFirst.2)^2)
        (acc.1 + v.1 * weight, acc.2.1 + v.2 * weight, acc.2.2 + weight))
    (0, 0, 0)
  let z := if acc.2.2 = 0 then ((1 : ℝ), (0 : ℝ), (1 : ℝ)) else acc
  let avgVx := z.1 / z.2.2
  let avgVy := z.2.1 / z.2.2
  let xd := if avgVx < 0 then (-avgVx, -avgVy) else (avgVx, avgVy)
  { x_dir := xd, y_dir := (-xd.2, xd.1),
    allEvecX := z.1, allEvecY := z.2.1, allWeights := z.2.2 }

/-
Embedding of the planar pose estimator (src/solvepnp/dlt.js and
src/unnamed/part_003).
-/

/-- A 3x3 homography as the nine entries solvePlanar reads from the
cv.findHomography result (external OpenCV, hence an input). -/
structure Homog where
  h00 : ℝ
  h01 : ℝ
  h02 : ℝ
  h10 : ℝ
  h11 : ℝ
  h12 : ℝ
  h20 : ℝ
  h21 : ℝ
  h22 : ℝ

/-- The translation branch of solvePlanar (src/solvepnp/dlt.js): decompose
K^-1 * H into r1, r2, t, and scale t by the average of the two column norms.
The JS divides tx, ty, tz by that scale unconditionally; when the scale is
zero (singular H, e.g. from collinear correspondences) the division yields
non-finite values, which this embedding marks with none.  K is the flat
camera matrix [fx, 0, cx, 0, fy, cy, 0, 0, 1]. -/
noncomputable def solvePlanarTvec (H : Homog) (fx cx fy cy : ℝ) :
    Option (ℝ × ℝ × ℝ) :=
  let r1x := (H.h00 - cx * H.h20) / fx
  let r1y := (H.h10 - cy * H.h20) / fy
  let r1z := H.h20
  let r2x := (H.h01 - cx * H.h21) / fx
  let r2y := (H.h11 - cy * H.h21) / fy
  let r2z := H.h21
  let tx := (H.h02 - cx * H.h22) / fx
  let ty := (H.h12 - cy * H.h22) / fy
  let tz := H.h22
  let n1 := Real.sqrt (r1x * r1x + r1y * r1y + r1z * r1z)
  let n2 := Real.sqrt (r2x * r2x + r2y * r2y + r2z * r2z)
  let scale := (n1 + n2) / 2
  if scale = 0 then none else some (tx / scale, ty / scale, tz / scale)

/-- Embedding of solvePnP (src/unnamed/part_003): it runs the DLT
initialization and the refinement and then returns the pose with
success := true unconditionally; no branch inspects the pose for validity,
so the flag is the constant true even for a degenerate homography. -/
noncomputable def solvePnP (H : Homog) (fx cx fy cy : ℝ) :
    Option (ℝ × ℝ × ℝ) × Bool :=
  (solvePlanarTvec H fx cx fy cy, true)

/-
Embedding of the Powell optimizer of src/unnamed/part_000 (bracketMinimum,
brentSearch, optimize1D, lineSearchAlongDirection, minimize).  Every function
returns, alongside the value the JS computes, a natural number counting how
many times it evaluated the objective (one count per call of f); the count is
extra instrumentation used by the bounded-evaluation property and does not
influence any computed value.  Parameter vectors are functions Fin n -> Q,
mirroring fixed-length Float64Arrays.
-/

/-- The final reordering of bracketMinimum: swap a and c when a > c. -/
def bracketPost (a b c : ℚ) : ℚ × ℚ × ℚ := if a > c then (c, b, a) else (a, b, c)

/-- The golden-ratio expansion loop of bracketMinimum: while fc < fb (at most
50 steps) shift a,b,c rightward, growing the step s by the factor 1.618. -/
def bracketLoop (f : ℚ → ℚ) : ℕ → ℚ → ℚ → ℚ → ℚ → ℚ → ℚ → (ℚ × ℚ × ℚ) × ℕ
  | 0, a, b, _s, c, _fb, _fc => (bracketPost a b c, 0)
  | fuel + 1, a, b, s, c, fb, fc =>
    if fc < fb then
      let s' := s * (809/500)
      let c' := c + s'
      let fc' := f c'
      let r := bracketLoop f fuel b c s' c' fc fc'
      (r.1, r.2 + 1)
    else (bracketPost a b c, 0)

/-- Embedding of bracketMinimum (src/unnamed/part_000): probe x0 and x0 + s;
if both directions go uphill return the symmetric bracket around x0,
otherwise expand with bracketLoop (the JS loop cap of 50 iterations is the
fuel). -/
def bracketMinimum (f : ℚ → ℚ) (x0 s : ℚ) : (ℚ × ℚ × ℚ) × ℕ :=
  let a := x0
  let fa := f a
  let b := x0 + s
  let fb := f b
  if fb > fa then
    let s' := -s
    let b' := x0 + s'
    let fb' := f b'
    if fb' > fa then
      ((x0 - |s'|, x0, x0 + |s'|), 3)
    else
      let c := b' + s'
      let fc := f c
      let r := bracketLoop f 50 a b' s' c fb' fc
      (r.1, r.2 + 4)
  else
    let c := b + s
    let fc := f c
    let r := bracketLoop f 50 a b s c fb fc
    (r.1, r.2 + 3)

/-- The mutable locals of brentSearch (src/unnamed/part_000): bracket ends
a and c, the three best points x, w, v with their values, and the step
memory e and d. -/
structure BrentSt where
  a : ℚ
  c : ℚ
  x : ℚ
  w : ℚ
  v : ℚ
  fx : ℚ
  fw : ℚ
  fv : ℚ
  e : ℚ
  d : ℚ

/-- The trial-step computation of one brentSearch iteration: the parabolic
interpolation with golden-section fallback, returning the new (d, e) pair
exactly as the JS mutates d and e. -/
def brentTrial (st : BrentSt) (xm tol1 tol2 : ℚ) : ℚ × ℚ :=
  if |st.e| > tol1 then
    let r := (st.x - st.w) * (st.fx - st.fv)
    let q0 := (st.x - st.v) * (st.fx - st.fw)
    let p0 := (st.x - st.v) * q0 - (st.x - st.w) * r
    let q1 := 2 * (q0 - r)
    let p1 := if q1 > 0 then -p0 else p0
    let q2 := |q1|
    let etemp := st.e
    let e1 := st.d
    if |p1| ≥ |(1/2) * q2 * etemp| ∨ p1 ≤ q2 * (st.a - st.x) ∨
        p1 ≥ q2 * (st.c - st.x) then
      let e2 := if st.x ≥ xm then st.a - st.x else st.c - st.x
      ((190983/500000) * e2, e2)
    else
      let d1 := p1 / q2
      let u0 := st.x + d1
      if u0 - st.a < tol2 ∨ st.c - u0 < tol2 then
        ((if xm - st.x ≥ 0 then tol1 else -tol1), e1)
      else (d1, e1)
  else
    let e2 := if st.x ≥ xm then st.a - st.x else st.c - st.x
    ((190983/500000) * e2, e2)

/-- The bookkeeping of one brentSearch iteration after evaluating f at the
trial point u: shrink the bracket and shuffle x, w, v and their values. -/
def brentUpdate (st : BrentSt) (u fu d1 e1 : ℚ) : BrentSt :=
  if fu ≤ st.fx then
    { a := if u ≥ st.x then st.x else st.a
      c := if u ≥ st.x then st.c else st.x
      x := u, w := st.x, v := st.w
      fx := fu, fw := st.fx, fv := st.fw
      e := e1, d := d1 }
  else
    let a' := if u < st.x then u else st.a
    let c' := if u < st.x then st.c else u
    if fu ≤ st.fw ∨ st.w = st.x then
      { a := a', c := c', x := st.x, w := u, v := st.w
        fx := st.fx, fw := fu, fv := st.fw, e := e1, d := d1 }
    else if fu ≤ st.fv ∨ st.v = st.x ∨ st.v = st.w then
      { a := a', c := c', x := st.x, w := st.w, v := u
        fx := st.fx, fw := st.fw, fv := fu, e := e1, d := d1 }
    else
      { a := a', c := c', x := st.x, w := st.w, v := st.v
        fx := st.fx, fw := st.fw, fv := st.fv, e := e1, d := d1 }

/-- The main loop of brentSearch, fuel = ITMAX = 100: stop on the tolerance
test returning the current x, otherwise take a trial step, evaluate f once,
update the state and continue. -/
def brentLoop (f : ℚ → ℚ) (tol : ℚ) : ℕ → BrentSt → ℚ × ℕ
  | 0, st => (st.x, 0)
  | fuel + 1, st =>
    let xm := (1/2) * (st.a + st.c)
    let tol1 := tol * |st.x| + (1/10000000000)
    let tol2 := 2 * tol1
    if |st.x - xm| ≤ tol2 - (1/2) * (st.c - st.a) then (st.x, 0)
    else
      let de := brentTrial st xm tol1 tol2
      let d1 := de.1
      let e1 := de.2
      let u := if |d1| ≥ tol1 then st.x + d1
               else st.x + (if d1 ≥ 0 then tol1 else -tol1)
      let fu := f u
      let r := brentLoop f tol fuel (brentUpdate st u fu d1 e1)
      (r.1, r.2 + 1)

/-- Embedding of brentSearch (src/unnamed/part_000): initialize x = w = v = b
with their common value f b, then run the capped main loop. -/
def brentSearch (f : ℚ → ℚ) (a b c tol : ℚ) : ℚ × ℕ :=
  let fb := f b
  let r := brentLoop f tol 100 ⟨a, c, b, b, b, fb, fb, fb, 0, 0⟩
  (r.1, r.2 + 1)

/-- Embedding of optimize1D: bracket from x0 with initial step 0.1, then
refine with Brent. -/
def optimize1D (f : ℚ → ℚ) (x0 tol : ℚ) : ℚ × ℕ :=
  let br := bracketMinimum f x0 (1/10)
  let r := brentSearch f br.1.1 br.1.2.1 br.1.2.2 tol
  (r.1, br.2 + r.2)

/-- Embedding of lineSearchAlongDirection (src/unnamed/part_000): skip
near-zero directions, otherwise minimize phi(alpha) = objective(x + alpha d)
from alpha = 0, move x, and re-evaluate the objective at the moved point.
Returns ((alpha, moved x, fx), evaluation count). -/
def lineSearchAlongDirection {n : ℕ} (x direction : Fin n → ℚ)
    (objective : (Fin n → ℚ) → ℚ) (tol : ℚ) : (ℚ × (Fin n → ℚ) × ℚ) × ℕ :=
  let maxComponent := (List.finRange n).foldl (fun m i => max m |direction i|) 0
  if maxComponent < 1/1000000000000 then ((0, x, objective x), 1)
  else
    let phi := fun alpha => objective fun i => x i + alpha * direction i
    let r := optimize1D phi 0 tol
    let alpha := r.1
    let x' := fun i => x i + alpha * direction i
    ((alpha, x', objective x'), r.2 + 1)

/-- The accumulator of the per-direction sweep inside one outer iteration of
minimize: current point and value, plus the largest single-direction
decrease and the index that produced it (none encodes the JS -1). -/
structure SweepAcc (n : ℕ) where
  x : Fin n → ℚ
  fx : ℚ
  biggestDecrease : ℚ
  biggestIdx : Option ℕ

/-- One direction of the sweep: line-search along it; if alpha is nonzero
record the decrease and adopt the new objective value, otherwise keep fx. -/
def powellSweepStep {n : ℕ} (objective : (Fin n → ℚ) → ℚ) (tol : ℚ)
    (acc : SweepAcc n) (idir : ℕ × (Fin n → ℚ)) : SweepAcc n × ℕ :=
  let fBefore := acc.fx
  let r := lineSearchAlongDirection acc.x idir.2 objective tol
  let alpha := r.1.1
  let x' := r.1.2.1
  let fxAfter := r.1.2.2
  if alpha ≠ 0 then
    let decrease := fBefore - fxAfter
    if decrease > acc.biggestDecrease then
      ({ x := x', fx := fxAfter, biggestDecrease := decrease,
         biggestIdx := some idir.1 }, r.2)
    else
      ({ x := x', fx := fxAfter, biggestDecrease := acc.biggestDecrease,
         biggestIdx := acc.biggestIdx }, r.2)
  else
    ({ x := x', fx := acc.fx, biggestDecrease := acc.biggestDecrease,
       biggestIdx := acc.biggestIdx }, r.2)

/-- The full per-direction sweep of one outer iteration of minimize. -/
def powellSweep {n : ℕ} (objective : (Fin n → ℚ) → ℚ) (tol : ℚ)
    (dirs : List (Fin n → ℚ)) (x0 : Fin n → ℚ) (fx0 : ℚ) : SweepAcc n × ℕ :=
  dirs.enum.foldl
    (fun p idir =>
      let r := powellSweepStep objective tol p.1 idir
      (r.1, p.2 + r.2))
    (⟨x0, fx0, 0, none⟩, 0)

/-- The state carried between outer iterations of minimize: the point, its
objective value, and the direction set. -/
structure PowellSt (n : ℕ) where
  x : Fin n → ℚ
  fx : ℚ
  dirs : List (Fin n → ℚ)

/-- One outer iteration of minimize (src/unnamed/part_000): sweep every
direction, test convergence, then evaluate the extrapolated point
x + (x - xOld) and, on Powell's acceptance test, line-search along the
displacement and replace the best direction by it.  Returns the new state,
the converged flag, and the evaluation count. -/
def powellIter {n : ℕ} (objective : (Fin n → ℚ) → ℚ) (tol : ℚ)
    (st : PowellSt n) : (PowellSt n × Bool) × ℕ :=
  let xOld := st.x
  let fxOld := st.fx
  let sw := powellSweep objective tol st.dirs st.x st.fx
  let acc := sw.1
  let converged := |fxOld - acc.fx| < tol
  let delta := fun i => acc.x i - xOld i
  let pt := fun i => acc.x i + delta i
  let fpt := objective pt
  match acc.biggestIdx with
  | some bi =>
    if fpt < acc.fx ∧
        2 * (fxOld - 2 * acc.fx + fpt) * (fxOld - acc.fx - acc.biggestDecrease)^2 <
          acc.biggestDecrease * (fxOld - fpt)^2 then
      let ls := lineSearchAlongDirection acc.x delta objective tol
      let alpha := ls.1.1
      let x2 := ls.1.2.1
      let fx2 := ls.1.2.2
      if alpha ≠ 0 then
        ((⟨x2, fx2, st.dirs.set bi delta⟩, false), sw.2 + 1 + ls.2)
      else ((⟨x2, acc.fx, st.dirs⟩, converged), sw.2 + 1 + ls.2)
    else ((⟨acc.x, acc.fx, st.dirs⟩, converged), sw.2 + 1)
  | none => ((⟨acc.x, acc.fx, st.dirs⟩, converged), sw.2 + 1)

/-- The outer loop of minimize, fuel = maxIter: run outer iterations until
the convergence flag stops the loop or the cap is reached. -/
def minimizeLoop {n : ℕ} (objective : (Fin n → ℚ) → ℚ) (tol : ℚ) :
    ℕ → PowellSt n → PowellSt n × ℕ
  | 0, st => (st, 0)
  | fuel + 1, st =>
    let r := powellIter objective tol st
    if r.1.2 then (r.1.1, r.2)
    else
      let r2 := minimizeLoop objective tol fuel r.1.1
      (r2.1, r.2 + r2.2)

/-- The initial direction set of minimize: the standard basis vectors. -/
def basisDirections (n : ℕ) : List (Fin n → ℚ) :=
  (List.finRange n).map fun i j => if j = i then 1 else 0

/-- Embedding of minimize (src/unnamed/part_000): Powell's method from the
initial point with the standard basis directions, capped at maxIter outer
iterations.  Returns ((final x, final fx), objective evaluation count). -/
def minimize {n : ℕ} (objective : (Fin n → ℚ) → ℚ) (initialParams : Fin n → ℚ)
    (maxIter : ℕ) (tol : ℚ) : ((Fin n → ℚ) × ℚ) × ℕ :=
  let fx0 := objective initialParams
  let r := minimizeLoop objective tol maxIter ⟨initialParams, fx0, basisDirections n⟩
  ((r.1.x, r.1.fx), r.2 + 1)

/-
Lemmas: descent structure of the Powell optimizer.
-/

lemma bracketPost_b (a b c : ℚ) : (bracketPost a b c).2.1 = b := by
  unfold bracketPost; split <;> rfl

lemma bracketLoop_le (f : ℚ → ℚ) (M : ℚ) :
    ∀ (fuel : ℕ) (a b s c fb fc : ℚ), fb = f b → fc = f c → fb ≤ M →
      f (bracketLoop f fuel a b s c fb fc).1.2.1 ≤ M := by
  intro fuel
  induction fuel with
  | zero =>
    intro a b s c fb fc hb _ hle
    simpa [bracketLoop, bracketPost_b, ← hb] using hle
  | succ m ih =>
    intro a b s c fb fc hb hc hle
    simp only [bracketLoop]
    split
    · dsimp only
      exact ih b c _ _ fc (f _) hc rfl (le_of_lt (lt_of_lt_of_le (by assumption) hle))
    · simpa [bracketPost_b, ← hb] using hle

lemma bracketMinimum_le (f : ℚ → ℚ) (x0 s : ℚ) :
    f (bracketMinimum f x0 s).1.2.1 ≤ f x0 := by
  simp only [bracketMinimum]
  split_ifs with h1 h2
  · exact le_refl _
  · exact bracketLoop_le f (f x0) 50 x0 _ _ _ _ _ rfl rfl (le_of_not_lt h2)
  · exact bracketLoop_le f (f x0) 50 x0 _ _ _ _ _ rfl rfl (le_of_not_lt h1)

lemma brentUpdate_spec (st : BrentSt) (u fu d1 e1 : ℚ) (f : ℚ → ℚ)
    (hst : st.fx = f st.x) (hu : fu = f u) :
    (brentUpdate st u fu d1 e1).fx = f (brentUpdate st u fu d1 e1).x ∧
      (brentUpdate st u fu d1 e1).fx ≤ st.fx := by
  unfold brentUpdate
  dsimp only
  split_ifs <;>
    exact ⟨by first | exact hu | exact hst,
           by first | assumption | exact le_refl _⟩

lemma brentLoop_le (f : ℚ → ℚ) (tol : ℚ) :
    ∀ (fuel : ℕ) (st : BrentSt), st.fx = f st.x →
      f (brentLoop f tol fuel st).1 ≤ st.fx := by
  intro fuel
  induction fuel with
  | zero => intro st h; simpa [brentLoop] using h.ge
  | succ m ih =>
    intro st h
    simp only [brentLoop]
    split
    · exact h.ge
    · dsimp only
      refine le_trans (ih _ (brentUpdate_spec st _ _ _ _ f h rfl).1) ?_
      exact (brentUpdate_spec st _ _ _ _ f h rfl).2

lemma brentSearch_le (f : ℚ → ℚ) (a b c tol : ℚ) :
    f (brentSearch f a b c tol).1 ≤ f b := by
  simp only [brentSearch]
  exact brentLoop_le f tol 100 ⟨a, c, b, b, b, f b, f b, f b, 0, 0⟩ rfl

lemma optimize1D_le (f : ℚ → ℚ) (x0 tol : ℚ) :
    f (optimize1D f x0 tol).1 ≤ f x0 := by
  simp only [optimize1D]
  exact le_trans (brentSearch_le f _ _ _ tol) (bracketMinimum_le f x0 _)

lemma lineSearch_spec {n : ℕ} (x d : Fin n → ℚ) (obj : (Fin n → ℚ) → ℚ)
    (tol : ℚ) :
    (lineSearchAlongDirection x d obj tol).1.2.2 =
        obj (lineSearchAlongDirection x d obj tol).1.2.1 ∧
      (lineSearchAlongDirection x d obj tol).1.2.2 ≤ obj x := by
  unfold lineSearchAlongDirection
  dsimp only
  split_ifs with h
  · exact ⟨rfl, le_refl _⟩
  · dsimp only
    refine ⟨rfl, ?_⟩
    have h0 : (fun i => x i + 0 * d i) = x := by funext i; ring
    have hopt := optimize1D_le (fun alpha => obj fun i => x i + alpha * d i) 0 tol
    simpa [h0] using hopt

lemma lineSearch_zero {n : ℕ} (x d : Fin n → ℚ) (obj : (Fin n → ℚ) → ℚ)
    (tol : ℚ) (h : (lineSearchAlongDirection x d obj tol).1.1 = 0) :
    (lineSearchAlongDirection x d obj tol).1.2.1 = x := by
  unfold lineSearchAlongDirection at h ⊢
  dsimp only at h ⊢
  split_ifs at h ⊢ with hc
  · rfl
  · dsimp only at h ⊢
    funext i
    rw [h, zero_mul, add_zero]

lemma powellSweepStep_spec {n : ℕ} (obj : (Fin n → ℚ) → ℚ) (tol : ℚ)
    (acc : SweepAcc n) (idir : ℕ × (Fin n → ℚ)) (h : acc.fx = obj acc.x) :
    (powellSweepStep obj tol acc idir).1.fx =
        obj (powellSweepStep obj tol acc idir).1.x ∧
      (powellSweepStep obj tol acc idir).1.fx ≤ acc.fx := by
  unfold powellSweepStep
  obtain ⟨he, hle⟩ := lineSearch_spec acc.x idir.2 obj tol
  dsimp only
  split_ifs with h1 h2
  · exact ⟨he, h ▸ hle⟩
  · exact ⟨he, h ▸ hle⟩
  · push_neg at h1
    refine ⟨?_, le_refl _⟩
    dsimp only
    rw [lineSearch_zero acc.x idir.2 obj tol h1]
    exact h

lemma powellSweep_go {n : ℕ} (obj : (Fin n → ℚ) → ℚ) (tol : ℚ)
    (l : List (ℕ × (Fin n → ℚ))) :
    ∀ (acc : SweepAcc n) (k : ℕ), acc.fx = obj acc.x →
      ((l.foldl
          (fun p idir =>
            let r := powellSweepStep obj tol p.1 idir
            (r.1, p.2 + r.2))
          (acc, k)).1.fx =
        obj ((l.foldl
          (fun p idir =>
            let r := powellSweepStep obj tol p.1 idir
            (r.1, p.2 + r.2))
          (acc, k)).1.x) ∧
      (l.foldl
          (fun p idir =>
            let r := powellSweepStep obj tol p.1 idir
            (r.1, p.2 + r.2))
          (acc, k)).1.fx ≤ acc.fx) := by
  induction l with
  | nil => intro acc k h; exact ⟨h, le_refl _⟩
  | cons e t ih =>
    intro acc k h
    obtain ⟨h1, h2⟩ := powellSweepStep_spec obj tol acc e h
    obtain ⟨h3, h4⟩ := ih (powellSweepStep obj tol acc e).1 _ h1
    exact ⟨h3, le_trans h4 h2⟩

lemma powellSweep_spec {n : ℕ} (obj : (Fin n → ℚ) → ℚ) (tol : ℚ)
    (dirs : List (Fin n → ℚ)) (x0 : Fin n → ℚ) (fx0 : ℚ) (h : fx0 = obj x0) :
    (powellSweep obj tol dirs x0 fx0).1.fx =
        obj (powellSweep obj tol dirs x0 fx0).1.x ∧
      (powellSweep obj tol dirs x0 fx0).1.fx ≤ fx0 := by
  unfold powellSweep
  exact powellSweep_go obj tol dirs.enum ⟨x0, fx0, 0, none⟩ 0 h

lemma powellIter_descent {n : ℕ} (obj : (Fin n → ℚ) → ℚ) (tol : ℚ)
    (st : PowellSt n) (h : st.fx = obj st.x) :
    ((powellIter obj tol st).1.1).fx ≤ st.fx := by
  unfold powellIter
  obtain ⟨hinv, hle⟩ := powellSweep_spec obj tol st.dirs st.x st.fx h
  dsimp only
  obtain ⟨he2, hle2⟩ :=
    lineSearch_spec (powellSweep obj tol st.dirs st.x st.fx).1.x
      (fun i => (powellSweep obj tol st.dirs st.x st.fx).1.x i - st.x i)
      obj tol
  split
  · split_ifs with hcond halpha
    · exact le_trans (le_trans hle2 hinv.ge) hle
    · exact hle
    · exact hle
  · exact hle

/-
Lemmas: every objective-evaluation count of the optimizer is bounded.
-/

lemma bracketLoop_count (f : ℚ → ℚ) :
    ∀ (fuel : ℕ) (a b s c fb fc : ℚ),
      (bracketLoop f fuel a b s c fb fc).2 ≤ fuel := by
  intro fuel
  induction fuel with
  | zero => intro a b s c fb fc; simp [bracketLoop]
  | succ m ih =>
    intro a b s c fb fc
    simp only [bracketLoop]
    split
    · dsimp only
      exact Nat.succ_le_succ (ih _ _ _ _ _ _)
    · simp

lemma bracketMinimum_count (f : ℚ → ℚ) (x0 s : ℚ) :
    (bracketMinimum f x0 s).2 ≤ 54 := by
  simp only [bracketMinimum]
  split_ifs
  · norm_num
  · exact le_trans (Nat.add_le_add_right (bracketLoop_count f 50 _ _ _ _ _ _) 4) (by norm_num)
  · exact le_trans (Nat.add_le_add_right (bracketLoop_count f 50 _ _ _ _ _ _) 3) (by norm_num)

lemma brentLoop_count (f : ℚ → ℚ) (tol : ℚ) :
    ∀ (fuel : ℕ) (st : BrentSt), (brentLoop f tol fuel st).2 ≤ fuel := by
  intro fuel
  induction fuel with
  | zero => intro st; simp [brentLoop]
  | succ m ih =>
    intro st
    simp only [brentLoop]
    split
    · simp
    · dsimp only
      exact Nat.succ_le_succ (ih _)

lemma brentSearch_count (f : ℚ → ℚ) (a b c tol : ℚ) :
    (brentSearch f a b c tol).2 ≤ 101 := by
  simp only [brentSearch]
  exact Nat.add_le_add_right (brentLoop_count f tol 100 _) 1

lemma optimize1D_count (f : ℚ → ℚ) (x0 tol : ℚ) :
    (optimize1D f x0 tol).2 ≤ 155 := by
  simp only [optimize1D]
  exact le_trans (Nat.add_le_add (bracketMinimum_count f x0 _) (brentSearch_count f _ _ _ tol))
    (by norm_num)

lemma lineSearch_count {n : ℕ} (x d : Fin n → ℚ) (obj : (Fin n → ℚ) → ℚ)
    (tol : ℚ) : (lineSearchAlongDirection x d obj tol).2 ≤ 156 := by
  unfold lineSearchAlongDirection
  dsimp only
  split_ifs
  · norm_num
  · exact le_trans (Nat.add_le_add_right (optimize1D_count _ 0 tol) 1) (by norm_num)

lemma powellSweepStep_count {n : ℕ} (obj : (Fin n → ℚ) → ℚ) (tol : ℚ)
    (acc : SweepAcc n) (idir : ℕ × (Fin n → ℚ)) :
    (powellSweepStep obj tol acc idir).2 ≤ 156 := by
  unfold powellSweepStep
  dsimp only
  split_ifs <;> exact lineSearch_count _ _ obj tol

lemma powellSweep_go_count {n : ℕ} (obj : (Fin n → ℚ) → ℚ) (tol : ℚ)
    (l : List (ℕ × (Fin n → ℚ))) :
    ∀ (acc : SweepAcc n) (k : ℕ),
      (l.foldl
          (fun p idir =>
            let r := powellSweepStep obj tol p.1 idir
            (r.1, p.2 + r.2))
          (acc, k)).2 ≤ k + 156 * l.length := by
  induction l with
  | nil => intro acc k; simp
  | cons e t ih =>
    intro acc k
    refine le_trans (ih _ _) ?_
    have := powellSweepStep_count obj tol acc e
    simp only [List.length_cons]
    omega

lemma powellSweep_count {n : ℕ} (obj : (Fin n → ℚ) → ℚ) (tol : ℚ)
    (dirs : List (Fin n → ℚ)) (x0 : Fin n → ℚ) (fx0 : ℚ) :
    (powellSweep obj tol dirs x0 fx0).2 ≤ 156 * dirs.length := by
  unfold powellSweep
  simpa using powellSweep_go_count obj tol dirs.enum ⟨x0, fx0, 0, none⟩ 0

lemma powellIter_count {n : ℕ} (obj : (Fin n → ℚ) → ℚ) (tol : ℚ)
    (st : PowellSt n) :
    (powellIter obj tol st).2 ≤ 156 * st.dirs.length + 157 := by
  unfold powellIter
  dsimp only
  have h1 := powellSweep_count obj tol st.dirs st.x st.fx
  have h2 := lineSearch_count (powellSweep obj tol st.dirs st.x st.fx).1.x
    (fun i => (powellSweep obj tol st.dirs st.x st.fx).1.x i - st.x i) obj tol
  split
  · split_ifs <;> dsimp only <;> omega
  · dsimp only; omega

lemma powellIter_dirs_length {n : ℕ} (obj : (Fin n → ℚ) → ℚ) (tol : ℚ)
    (st : PowellSt n) :
    ((powellIter obj tol st).1.1).dirs.length = st.dirs.length := by
  unfold powellIter
  dsimp only
  split
  · split_ifs <;> simp
  · simp

lemma minimizeLoop_count {n : ℕ} (obj : (Fin n → ℚ) → ℚ) (tol : ℚ) (m : ℕ) :
    ∀ (fuel : ℕ) (st : PowellSt n), st.dirs.length = m →
      (minimizeLoop obj tol fuel st).2 ≤ fuel * (156 * m + 157) := by
  intro fuel
  induction fuel with
  | zero => intro st _; simp [minimizeLoop]
  | succ k ih =>
    intro st hlen
    simp only [minimizeLoop]
    have h1 := powellIter_count obj tol st
    rw [hlen] at h1
    split
    · refine le_trans h1 ?_
      calc 156 * m + 157 ≤ (156 * m + 157) * (k + 1) := Nat.le_mul_of_pos_right _ (Nat.succ_pos k)
        _ = (k + 1) * (156 * m + 157) := Nat.mul_comm _ _
    · dsimp only
      have h2 := ih ((powellIter obj tol st).1.1)
        (by rw [powellIter_dirs_length, hlen])
      calc (powellIter obj tol st).2 + (minimizeLoop obj tol k (powellIter obj tol st).1.1).2
          ≤ (156 * m + 157) + k * (156 * m + 157) := Nat.add_le_add h1 h2
        _ = (k + 1) * (156 * m + 157) := by ring

lemma basisDirections_length (n : ℕ) : (basisDirections n).length = n := by
  simp [basisDirections]

lemma minimize_count {n : ℕ} (obj : (Fin n → ℚ) → ℚ) (x0 : Fin n → ℚ)
    (maxIter : ℕ) (tol : ℚ) :
    (minimize obj x0 maxIter tol).2 ≤ 1 + maxIter * (156 * n + 157) := by
  unfold minimize
  dsimp only
  have := minimizeLoop_count obj tol n maxIter ⟨x0, obj x0, basisDirections n⟩
    (basisDirections_length n)
  omega

/-
Supporting lemmas for the remaining claims.
-/

lemma cubicZ_hasDerivAt (a b x : ℝ) :
    HasDerivAt (fun t : ℝ => cubicZ a b t)
      (3 * (a + b) * x^2 + 2 * (-2*a - b) * x + a) x := by
  have h3 : HasDerivAt (fun t : ℝ => t^3) (3 * x^2) x := by
    simpa using hasDerivAt_pow 3 x
  have h2 : HasDerivAt (fun t : ℝ => t^2) (2 * x) x := by
    simpa using hasDerivAt_pow 2 x
  have h1 : HasDerivAt (fun t : ℝ => t) 1 x := hasDerivAt_id x
  have h := ((h3.const_mul (a + b)).add (h2.const_mul (-2*a - b))).add
    (h1.const_mul a)
  have heq : (a + b) * (3 * x ^ 2) + (-2*a - b) * (2 * x) + a * 1 =
      3 * (a + b) * x^2 + 2 * (-2*a - b) * x + a := by ring
  rw [← heq]
  exact h

lemma clampRemapCoord_bounds (x : ℚ) :
    -100000 ≤ clampRemapCoord x ∧ clampRemapCoord x ≤ 100000 := by
  unfold clampRemapCoord
  split_ifs with h1 h2 <;> constructor <;> linarith

lemma buildRemapCoords_count (pts : List (Option (ℚ × ℚ))) :
    (buildRemapCoords pts).2 = pts.count none := by
  unfold buildRemapCoords
  dsimp only
  induction pts with
  | nil => simp
  | cons p t ih =>
    cases p with
    | none =>
      have hb : (sanitizeRemapPoint none).2 = true := rfl
      simp [List.count_cons, hb, ih]
    | some q =>
      have hb : (sanitizeRemapPoint (some q)).2 = false := rfl
      simp [List.count_cons, hb, ih]

/-
Supporting lemmas for the span-linking claim: evaluation of the embedded
pipeline on the three concrete records, and the converse-links invariant.
-/

lemma jsAtan2_zero_one : jsAtan2 0 1 = 0 := by
  unfold jsAtan2
  rw [if_pos one_pos]
  simp [Real.arctan_zero]

lemma jsAtan2_zero_zero : jsAtan2 0 0 = 0 := by
  unfold jsAtan2
  norm_num

lemma angleDist_zero : angleDist 0 0 = 0 := by
  unfold angleDist
  dsimp only
  have h1 : ¬((0 : ℝ) - 0 > Real.pi) := by
    rw [sub_zero]
    exact not_lt.mpr Real.pi_pos.le
  rw [if_neg h1]
  have h2 : ¬((0 : ℝ) - 0 < -Real.pi) := by
    rw [sub_zero, not_lt]
    linarith [Real.pi_pos]
  rw [if_neg h2]
  norm_num

lemma sqrt_twentyfive : Real.sqrt 25 = 5 := by
  rw [show (25 : ℝ) = 5 ^ 2 by norm_num]
  exact Real.sqrt_sq (by norm_num)

lemma sqrt_nine : Real.sqrt 9 = 3 := by
  rw [show (9 : ℝ) = 3 ^ 2 by norm_num]
  exact Real.sqrt_sq (by norm_num)

lemma exRec0_constructed : exRec0 = mkCInfo [(-2, 0), (0, 0)] (0, 0) (1, 0) 0 0 1 1 := by
  unfold exRec0 mkCInfo
  norm_num [jsAtan2_zero_one, CInfo.mk.injEq]

lemma exRec1_constructed : exRec1 = mkCInfo [(-1, 0), (3, 0)] (0, 0) (1, 0) 0 1 1 1 := by
  unfold exRec1 mkCInfo
  norm_num [jsAtan2_zero_one, CInfo.mk.injEq]

lemma exRec2_constructed : exRec2 = mkCInfo [(1, 0), (2, 0)] (0, 0) (1, 0) 0 2 1 1 := by
  unfold exRec2 mkCInfo
  norm_num [jsAtan2_zero_one, CInfo.mk.injEq]

lemma edge_1_0 :
    generateCandidateEdge [exRec0, exRec1, exRec2] 1 0 = some (1, 0, 5) := by
  unfold generateCandidateEdge localOverlap intervalMeasureOverlap projX
  norm_num [exRec0, exRec1, exRec2, List.getD_cons_zero, List.getD_cons_succ,
    jsAtan2_zero_zero, angleDist_zero, sqrt_twentyfive,
    Config.EDGE_MAX_LENGTH, Config.EDGE_MAX_OVERLAP, Config.EDGE_MAX_ANGLE,
    Config.EDGE_ANGLE_COST]

lemma edge_2_0 :
    generateCandidateEdge [exRec0, exRec1, exRec2] 2 0 = some (0, 2, 1) := by
  unfold generateCandidateEdge localOverlap intervalMeasureOverlap projX
  norm_num [exRec0, exRec1, exRec2, List.getD_cons_zero, List.getD_cons_succ,
    jsAtan2_zero_zero, angleDist_zero, Real.sqrt_one,
    Config.EDGE_MAX_LENGTH, Config.EDGE_MAX_OVERLAP, Config.EDGE_MAX_ANGLE,
    Config.EDGE_ANGLE_COST]

lemma edge_2_1 :
    generateCandidateEdge [exRec0, exRec1, exRec2] 2 1 = some (2, 1, 3) := by
  unfold generateCandidateEdge localOverlap intervalMeasureOverlap projX
  norm_num [exRec0, exRec1, exRec2, List.getD_cons_zero, List.getD_cons_succ,
    jsAtan2_zero_zero, angleDist_zero, sqrt_nine,
    Config.EDGE_MAX_LENGTH, Config.EDGE_MAX_OVERLAP, Config.EDGE_MAX_ANGLE,
    Config.EDGE_ANGLE_COST]

lemma exEdges :
    generateAllCandidateEdges [exRec0, exRec1, exRec2] =
      [(1, 0, 5), (0, 2, 1), (2, 1, 3)] := by
  unfold generateAllCandidateEdges
  have hr : [exRec0, exRec1, exRec2].length = 3 := rfl
  rw [hr]
  rw [show List.range 3 = [0, 1, 2] from rfl]
  simp only [List.flatMap_cons, List.flatMap_nil,
    show List.range 0 = ([] : List ℕ) from rfl,
    show List.range 1 = [0] from rfl,
    show List.range 2 = [0, 1] from rfl,
    List.filterMap_cons, List.filterMap_nil]
  rw [edge_1_0, edge_2_0, edge_2_1]
  rfl

lemma exSorted :
    sortContoursForAssembly [exRec0, exRec1, exRec2] = [exRec0, exRec1, exRec2] := by
  unfold sortContoursForAssembly
  simp only [List.insertionSort, List.orderedInsert]
  rw [if_pos (by left; norm_num [rectKeyLe, exRec0, exRec1, exRec2])]

lemma exLinks :
    (linkContours [((1 : ℕ), (0 : ℕ), (5 : ℝ)), (0, 2, 1), (2, 1, 3)]).1 0 = some 2 ∧
      (linkContours [((1 : ℕ), (0 : ℕ), (5 : ℝ)), (0, 2, 1), (2, 1, 3)]).1 2 = some 1 ∧
      (linkContours [((1 : ℕ), (0 : ℕ), (5 : ℝ)), (0, 2, 1), (2, 1, 3)]).1 1 = some 0 := by
  unfold linkContours
  dsimp only
  have hsorted : @List.insertionSort (ℕ × ℕ × ℝ) (fun e1 e2 => e1.2.2 ≤ e2.2.2)
      (Classical.decRel _) [(1, 0, 5), (0, 2, 1), (2, 1, 3)] =
      [(0, 2, 1), (2, 1, 3), (1, 0, 5)] := by
    norm_num [List.insertionSort, List.orderedInsert]
  rw [hsorted]
  simp only [List.foldl_cons, List.foldl_nil]
  norm_num [linkStep, Function.update_apply]

lemma linkFold_converse (l : List (ℕ × ℕ × ℝ)) :
    ∀ sp : (ℕ → Option ℕ) × (ℕ → Option ℕ),
      (∀ a b, sp.1 a = some b ↔ sp.2 b = some a) →
      ∀ a b,
        ((l.foldl linkStep sp).1 a = some b ↔
          (l.foldl linkStep sp).2 b = some a) := by
  induction l with
  | nil => intro sp h a b; exact h a b
  | cons e t ih =>
    intro sp h a b
    simp only [List.foldl_cons]
    apply ih
    intro a' b'
    unfold linkStep
    by_cases hc : sp.1 e.1 = none ∧ sp.2 e.2.1 = none
    · rw [if_pos hc]
      dsimp only
      rw [Function.update_apply, Function.update_apply]
      by_cases ha : a' = e.1
      · subst ha
        rw [if_pos rfl]
        by_cases hb : b' = e.2.1
        · subst hb
          rw [if_pos rfl]
          exact iff_of_true rfl rfl
        · rw [if_neg hb]
          constructor
          · intro hsome
            exact absurd (Option.some.inj hsome).symm hb
          · intro hpred
            have hcon := (h e.1 b').mpr hpred
            rw [hc.1] at hcon
            exact absurd hcon (by simp)
      · rw [if_neg ha]
        by_cases hb : b' = e.2.1
        · subst hb
          rw [if_pos rfl]
          constructor
          · intro hsucc
            have hcon := (h a' e.2.1).mp hsucc
            rw [hc.2] at hcon
            exact absurd hcon (by simp)
          · intro hsome
            exact absurd (Option.some.inj hsome).symm ha
        · rw [if_neg hb]
          exact h a' b'
    · rw [if_neg hc]
      exact h a' b'

/-
Claim theorems.
-/

/-- C2: for every total objective function and every optimizer state whose
tracked value equals the objective at the current point (the invariant the
routine maintains), one outer iteration of the Powell minimize routine
leaves the tracked objective value non-increasing. -/
theorem claimC2_powell_outer_iteration_monotone {n : ℕ}
    (objective : (Fin n → ℚ) → ℚ) (tol : ℚ) (st : PowellSt n)
    (h : st.fx = objective st.x) :
    ((powellIter objective tol st).1.1).fx ≤ st.fx :=
  powellIter_descent objective tol st h

/-- Witness for C2: a concrete instance (the constant-zero objective in one
dimension) discharging the invariant hypothesis. -/
theorem claimC2_witness :
    ((0 : ℚ) = (fun _ : Fin 1 → ℚ => (0 : ℚ)) (fun _ => 0)) ∧
      ((powellIter (fun _ : Fin 1 → ℚ => (0 : ℚ)) (1/1000000)
          ⟨fun _ => 0, 0, basisDirections 1⟩).1.1).fx ≤ 0 :=
  ⟨rfl, claimC2_powell_outer_iteration_monotone _ _ _ rfl⟩

/-- C10: the Powell minimize routine always terminates with a bounded number
of objective evaluations: the bracket expansion is capped at 50 steps, each
Brent line search at 100 iterations (so one line search costs at most 156
evaluations), and the outer loop runs at most maxIter iterations (the
optimiseParams call site uses Config.OPTIM_MAX_ITER = 60), giving at most
1 + maxIter * (156 * n + 157) evaluations per call on n parameters. -/
theorem claimC10_minimize_evaluations_bounded :
    Config.OPTIM_MAX_ITER = 60 ∧
      ∀ (n : ℕ) (objective : (Fin n → ℚ) → ℚ) (x0 : Fin n → ℚ)
        (maxIter : ℕ) (tol : ℚ),
        (minimize objective x0 maxIter tol).2 ≤ 1 + maxIter * (156 * n + 157) :=
  ⟨rfl, fun _ objective x0 maxIter tol => minimize_count objective x0 maxIter tol⟩

/-- C3: projectXY clamps the slope parameters read from params[6] and
params[7] to [-0.5, 0.5], and the cubic z = p0 x^3 + p1 x^2 + p2 x with
p0 = alpha + beta, p1 = -2 alpha - beta, p2 = alpha satisfies z(0) = 0,
z(1) = 0, z'(0) = alpha and z'(1) = beta for all real alpha and beta. -/
theorem claimC3_cubic_clamp_and_boundary_conditions :
    (∀ v : ℚ, -(1/2) ≤ clamp05 v ∧ clamp05 v ≤ 1/2) ∧
      (∀ a b : ℝ,
        cubicZ a b 0 = 0 ∧ cubicZ a b 1 = 0 ∧
        HasDerivAt (fun x : ℝ => cubicZ a b x) a 0 ∧
        HasDerivAt (fun x : ℝ => cubicZ a b x) b 1) := by
  constructor
  · intro v
    unfold clamp05
    exact ⟨le_max_left _ _, max_le (by norm_num) (min_le_left _ _)⟩
  · intro a b
    refine ⟨by unfold cubicZ; ring, by unfold cubicZ; ring, ?_, ?_⟩
    · have h := cubicZ_hasDerivAt a b 0
      simpa using h
    · have h := cubicZ_hasDerivAt a b 1
      have heq : 3 * (a + b) * (1:ℝ)^2 + 2 * (-2*a - b) * 1 + a = b := by ring
      rwa [heq] at h

/-- C4: with both cubic slopes zero, identity rotation (the cv.Rodrigues
image of the zero rotation vector) and translation (0, 0, 1), projectXY
maps (0, 0) to (0, 0) and (0.5, 0.5) to (f * 0.5, f * 0.5) with
f = Config.FOCAL_LENGTH = 1.2, and the surface height is 0 for every x. -/
theorem claimC4_flat_page_projection :
    projectXY identityRot [(0, 0), (1/2, 1/2)] [0, 0, 0, 0, 0, 1, 0, 0] =
        [some (0, 0), some (3/5, 3/5)] ∧
      (∀ x : ℚ, cubicZ 0 0 x = 0) ∧
      Config.FOCAL_LENGTH * (1/2) = 3/5 := by
  refine ⟨?_, fun x => by unfold cubicZ; ring,
    by norm_num [Config.FOCAL_LENGTH]⟩
  norm_num [projectXY, identityRot, clamp05, cubicZ, Config.FOCAL_LENGTH]

/-- C6 counterexample: for span counts [3, 4] the KeypointIndex has length
8 (one dummy entry plus one entry per point), not 8 + 2 + 7 = 17 as the
claim states. -/
theorem claimC6_counterexample :
    (makeKeypointIndex [3, 4]).length = 8 ∧
      (makeKeypointIndex [3, 4]).length ≠ 8 + 2 + 7 := by
  constructor <;> decide

/-- C6 (amended): for span counts [3, 4] the KeypointIndex has length
N + 1 = 8, every stored parameter index is below 17 (so the entries address
a parameter vector of length 8 + S + N = 17), and the assembled initial
parameter vector always has length 8 + S + N. -/
theorem claimC6_parameter_vector_layout :
    (makeKeypointIndex [3, 4]).length = 3 + 4 + 1 ∧
      (∀ e ∈ makeKeypointIndex [3, 4], e.1 < 17 ∧ e.2 < 17) ∧
      (∀ (rvec tvec : ℚ × ℚ × ℚ) (ycoords : List ℚ) (xcoords : List (List ℚ)),
        (defaultParamsVec rvec tvec ycoords xcoords).length =
          8 + ycoords.length + (xcoords.map List.length).sum) := by
  refine ⟨by decide, by decide, ?_⟩
  intro rvec tvec ycoords xcoords
  simp [defaultParamsVec]
  omega

/-- Witness for C6 at the dummy index entry. -/
theorem claimC6_witness :
    ((0, 0) ∈ makeKeypointIndex [3, 4]) ∧
      ((0, 0) : ℕ × ℕ).1 < 17 ∧ ((0, 0) : ℕ × ℕ).2 < 17 :=
  ⟨by decide, claimC6_parameter_vector_layout.2.1 (0, 0) (by decide)⟩

/-- C7 counterexample: an objective evaluation used by the Powell optimizer
can be non-finite.  With one span of one point, rvec = 0 (identity
rotation), tvec = (0, 0, 0) and keypoint x = 1, the dummy keypoint (0, 0)
has camera depth Pcz = 0, the JS perspective division produces NaN, and the
objective sum is non-finite (none); no detection or clamping intervenes. -/
theorem claimC7_counterexample_nonfinite_objective :
    optimiseObjective identityRot [(0, 0), (1, 0)] (makeKeypointIndex [1])
        [0, 0, 0, 0, 0, 0, 0, 0, 0, 1] = none := by
  have hk : makeKeypointIndex [1] = [(0, 0), (9, 8)] := by decide
  rw [hk]
  norm_num [optimiseObjective, projectKeypoints, projectXY, identityRot,
    clamp05, cubicZ, Config.FOCAL_LENGTH]

/-- C7 (amended): the detect/substitute/clamp policy lives in buildRemapMaps
only: there every non-finite projected point is replaced by the sentinel
(0,0) and counted, and every stored coordinate is clamped to [-1e5, 1e5];
the Powell objective, by contrast, consumes projected coordinates with no
such protection and can evaluate to a non-finite value. -/
theorem claimC7_remap_sanitized_objective_unprotected :
    (∀ (pts : List (Option (ℚ × ℚ))), ∀ p ∈ (buildRemapCoords pts).1,
        (-100000 ≤ p.1 ∧ p.1 ≤ 100000) ∧ (-100000 ≤ p.2 ∧ p.2 ≤ 100000)) ∧
      (∀ (pts : List (Option (ℚ × ℚ))),
        (buildRemapCoords pts).2 = pts.count none) ∧
      optimiseObjective identityRot [(0, 0), (1, 0)] (makeKeypointIndex [1])
          [0, 0, 0, 0, 0, 0, 0, 0, 0, 1] = none := by
  refine ⟨?_, buildRemapCoords_count, ?_⟩
  swap
  · have hk : makeKeypointIndex [1] = [(0, 0), (9, 8)] := by decide
    rw [hk]
    norm_num [optimiseObjective, projectKeypoints, projectXY, identityRot,
      clamp05, cubicZ, Config.FOCAL_LENGTH]
  intro pts p hp
  unfold buildRemapCoords at hp
  dsimp only at hp
  rw [List.mem_map] at hp
  obtain ⟨q, _, rfl⟩ := hp
  cases q with
  | none => exact ⟨clampRemapCoord_bounds 0, clampRemapCoord_bounds 0⟩
  | some q' => exact ⟨clampRemapCoord_bounds q'.1, clampRemapCoord_bounds q'.2⟩

/-- Witness for C7 at the single non-finite point. -/
theorem claimC7_witness :
    ((0, 0) ∈ (buildRemapCoords [none]).1) ∧
      ((-100000 ≤ ((0 : ℚ), (0 : ℚ)).1 ∧ ((0 : ℚ), (0 : ℚ)).1 ≤ 100000) ∧
        (-100000 ≤ ((0 : ℚ), (0 : ℚ)).2 ∧ ((0 : ℚ), (0 : ℚ)).2 ≤ 100000)) :=
  ⟨by decide,
    claimC7_remap_sanitized_objective_unprotected.1 [none] (0, 0) (by decide)⟩

/-- C9 counterexample: with the default asInteger = true, norm2pix rounds
each coordinate with Math.trunc(x + 0.5), so the round trip moves the
interior point (0.5, 0) of a 10 x 10 shape to (1, 0) - an error of one half
pixel, not a floating-point tolerance. -/
theorem claimC9_counterexample_integer_rounding :
    norm2pix 10 10 (pix2norm 10 10 [(1/2, 0)]) true = [(1, 0)] ∧
      norm2pix 10 10 (pix2norm 10 10 [(1/2, 0)]) true ≠ [(1/2, 0)] := by
  have he : norm2pix 10 10 (pix2norm 10 10 [(1/2, 0)]) true = [(1, 0)] := by
    norm_num [pix2norm, norm2pix, jsTrunc]
  refine ⟨he, ?_⟩
  rw [he]
  intro hcon
  simp only [List.cons.injEq, Prod.mk.injEq] at hcon
  exact absurd hcon.1.1 (by norm_num)

/-- C9 (amended): with asInteger = false the conversion pair is an exact
inverse: norm2pix(shape, pix2norm(shape, pts)) returns the original points
for every rectangular shape with positive extent and every point list; the
default integer rounding only returns them to the nearest pixel. -/
theorem claimC9_roundtrip_exact (h w : ℚ) (pts : List (ℚ × ℚ))
    (hpos : 0 < max h w) :
    norm2pix h w (pix2norm h w pts) false = pts := by
  have hne : max h w ≠ 0 := ne_of_gt hpos
  induction pts with
  | nil => rfl
  | cons p t ih =>
    unfold norm2pix pix2norm at ih ⊢
    simp only [List.map_cons, List.map_map] at ih ⊢
    refine congrArg₂ List.cons ?_ ih
    have h1 : (p.1 - w * (1/2)) * (2 / max h w) * (max h w * (1/2)) + w * (1/2) = p.1 := by
      field_simp
    have h2 : (p.2 - h * (1/2)) * (2 / max h w) * (max h w * (1/2)) + h * (1/2) = p.2 := by
      field_simp
    simp only [Bool.false_eq_true, if_false]
    exact Prod.ext h1 h2

/-- Witness for C9 at a concrete shape and point. -/
theorem claimC9_witness :
    (0 : ℚ) < max 10 10 ∧
      norm2pix 10 10 (pix2norm 10 10 [(1, 2)]) false = [(1, 2)] :=
  ⟨by norm_num, claimC9_roundtrip_exact 10 10 [(1, 2)] (by norm_num)⟩

/-- C8 (code bug): on a degenerate (singular) homography - for example the
zero matrix that collinear correspondences induce - solvePlanar divides the
translation by the zero average norm, producing a non-finite pose (none),
while solvePnP still reports success = true: no distinct error is signaled
and the invalid pose flows downstream.  The camera matrix is
diag(1.2, 1.2, 1) as built by getDefaultParams. -/
theorem claimC8_degenerate_pose_no_error :
    solvePnP ⟨0, 0, 0, 0, 0, 0, 0, 0, 0⟩ (6/5) 0 (6/5) 0 = (none, true) := by
  unfold solvePnP solvePlanarTvec
  norm_num

/-- C5 (code bug): computeGlobalPageAxes returns the weighted average of the
span axes without rescaling it to unit length.  For two spans with axes
(1, 0) and (0, 1) and equal chord weights 1 the returned x_dir is
(1/2, 1/2), whose squared norm is 1/2, not 1; y_dir is still the 90-degree
rotation of x_dir. -/
theorem claimC5_x_dir_not_unit :
    (computeGlobalPageAxes [[(0, 0), (1, 0)], [(0, 0), (0, 1)]]).x_dir = (1/2, 1/2) ∧
      ((computeGlobalPageAxes [[(0, 0), (1, 0)], [(0, 0), (0, 1)]]).x_dir.1 ^ 2 +
          (computeGlobalPageAxes [[(0, 0), (1, 0)], [(0, 0), (0, 1)]]).x_dir.2 ^ 2 ≠ 1) ∧
      (computeGlobalPageAxes [[(0, 0), (1, 0)], [(0, 0), (0, 1)]]).y_dir = (-(1/2), 1/2) := by
  have gpa1 : getPrincipalAxis [(0 : ℝ × ℝ), (1, 0)] = (1, 0) := by
    norm_num [getPrincipalAxis]
  have gpa2 : getPrincipalAxis [(0 : ℝ × ℝ), (0, 1)] = (0, 1) := by
    norm_num [getPrincipalAxis]
  have hax : computeGlobalPageAxes [[(0, 0), (1, 0)], [(0, 0), (0, 1)]] =
      { x_dir := (1/2, 1/2), y_dir := (-(1/2), 1/2),
        allEvecX := 1, allEvecY := 1, allWeights := 2 } := by
    unfold computeGlobalPageAxes
    norm_num [gpa1, gpa2, Real.sqrt_one]
  rw [hax]
  norm_num

/-- C1 counterexample: three constructible contour records (all derivable
from the ContourInfo constructor, see the consistency lemmas) whose three
accepted candidate edges form a directed cycle that the greedy linker
commits entirely: record 0 reaches itself in three succ steps after span
assembly, so the claimed acyclicity fails (and the pred-walk of extractSpans
would not terminate on this input). -/
theorem claimC1_counterexample_cycle :
    succIter (assembleLinks [exRec0, exRec1, exRec2]).1 3 0 = some 0 := by
  unfold assembleLinks
  rw [exSorted, exEdges]
  obtain ⟨h1, h2, h3⟩ := exLinks
  simp [succIter, h1, h2, h3]

/-- C1 (amended): after edge linking, the succ and pred links are converse
partial maps - a record's successor is b exactly when b's predecessor is
that record - so every record has at most one successor and at most one
predecessor and no two records share one; but the links need not be
acyclic: the greedy check does not prevent committed edges from forming a
cycle, as the counterexample shows. -/
theorem claimC1_links_are_converse_partial_maps
    (candidateEdges : List (ℕ × ℕ × ℝ)) (a b : ℕ) :
    (linkContours candidateEdges).1 a = some b ↔
      (linkContours candidateEdges).2 b = some a := by
  unfold linkContours
  exact linkFold_converse _ (fun _ => none, fun _ => none)
    (fun a' b' => by simp) a b

end PageDewarp
